import Mathlib

/-!
Shallow embedding of the orchestrator client of the CurricAlign repository.

Primary source of authority: `src/frontend/src/components/report/useOrchestrator.ts`
together with `src/frontend/src/components/report/constants.ts` and `types.ts`.
The repository also contains an alternate copy of the same hook
(`src/unnamed/part_025`, header comment `src/components/report/useOrchestrator.ts`);
where a claim cites both copies, definitions for the alternate copy carry the
suffix `Alt`.

JavaScript strings are modelled as `String`; absent-or-falsy JSON fields are
modelled as `Option String` with the empty string treated as falsy, mirroring
JS truthiness checks (`if (x)`, `a || b`) used by the source.
-/

namespace Orchestrator

/-- `StepStatus` from `types.ts`: 'pending' | 'in-progress' | 'completed' | 'error'. -/
inductive StepStatus where
  | pending
  | inProgress
  | completed
  | error
deriving DecidableEq, Repr

/-- `ProcessStep` from `types.ts`: `{ id, name, fn, status }`. -/
structure ProcessStep where
  id : String
  name : String
  fn : String
  status : StepStatus
deriving DecidableEq, Repr

/-- `INITIAL_STEPS` from `constants.ts` (7 entries, display order). -/
def INITIAL_STEPS : List ProcessStep :=
  [ { id := "1", name := "Scraping Jobs", fn := "scrape_jobs_from_google_jobs", status := .pending },
    { id := "2", name := "Extracting Job Skills", fn := "extract_skills_from_jobs", status := .pending },
    { id := "3", name := "Extracting Course Skills", fn := "extract_subject_skills_from_supabase", status := .pending },
    { id := "4", name := "Retraining ML Models", fn := "retrain_ml_models", status := .pending },
    { id := "5", name := "Generating Course Alignment Scores", fn := "compute_subject_scores_and_save", status := .pending },
    { id := "6", name := "Final Validation", fn := "final_checking", status := .pending },
    { id := "7", name := "Creating PDF Report", fn := "generate_pdf_report", status := .pending } ]

/-- JS truthiness of an optional string field: present and non-empty. -/
def jsTruthy : Option String → Bool
  | some s => s ≠ ""
  | none => false

/-- JS `a || b` on optional string fields, normalised so that the result is
`none` exactly when it is falsy (`""` counts as falsy, as in JS). -/
def jsOrStr (a b : Option String) : Option String :=
  match a with
  | some s => if s = "" then (match b with
      | some t => if t = "" then none else some t
      | none => none)
    else some s
  | none => match b with
    | some t => if t = "" then none else some t
    | none => none

/-- The fixed status table of the SSE message handler
(`useOrchestrator.ts` lines 248–252): `started → in-progress`,
`completed → completed`, `error → error`; anything else is unmapped. -/
def sseStatusMap (st : String) : Option StepStatus :=
  if st = "started" then some .inProgress
  else if st = "completed" then some .completed
  else if st = "error" then some .error
  else none

/-- The fixed status table of the polling reconciler
(`useOrchestrator.ts` lines 304–309): `pending → pending`,
`in_progress → in-progress`, `completed → completed`, `error → error`. -/
def pollStatusMap (st : String) : Option StepStatus :=
  if st = "pending" then some .pending
  else if st = "in_progress" then some .inProgress
  else if st = "completed" then some .completed
  else if st = "error" then some .error
  else none

/-- The `setSteps` update of the SSE message handler
(`useOrchestrator.ts` lines 245–255): for the step whose `fn` matches,
`status := map[st] ?? s.status`; all other steps are returned unchanged. -/
def applySseStatus (steps : List ProcessStep) (fn st : String) : List ProcessStep :=
  steps.map fun s =>
    if s.fn = fn then { s with status := (sseStatusMap st).getD s.status } else s

/-- The `setSteps` update of the polling reconciler
(`useOrchestrator.ts` lines 301–312): `data.steps![s.fn]` is looked up per
step; a missing or falsy (empty) value leaves the step unchanged, otherwise
`status := map[st] ?? s.status`. -/
def applyPollSteps (steps : List ProcessStep) (data : String → Option String) :
    List ProcessStep :=
  steps.map fun s =>
    match data s.fn with
    | some raw =>
        if raw = "" then s
        else { s with status := (pollStatusMap raw).getD s.status }
    | none => s

/-- The `setSteps` update of the SSE explicit-error branch
(`useOrchestrator.ts` lines 226–228): the step whose `fn` equals the failed
function is set to `error`; all other steps are returned unchanged. -/
def applyErrorEvent (steps : List ProcessStep) (failedFn : String) : List ProcessStep :=
  steps.map fun s =>
    if s.fn = failedFn then { s with status := .error } else s

/-- The step array installed by `resetUI` and by `cancel`
(`INITIAL_STEPS.map((s) => ({ ...s, status: 'pending' }))`). -/
def resetSteps : List ProcessStep :=
  INITIAL_STEPS.map fun s => { s with status := .pending }

/-- `mapStatus` of the alternate copy (`src/unnamed/part_025` lines 242–255):
`in_progress → in-progress`, `pending → pending`, `started → in-progress`,
`completed → completed`, `error → error`, default fallback `pending`. -/
def mapStatusAlt (st : Option String) : StepStatus :=
  match st with
  | none => .pending
  | some s =>
      if s = "" then .pending
      else if s = "in_progress" then .inProgress
      else if s = "pending" then .pending
      else if s = "started" then .inProgress
      else if s = "completed" then .completed
      else if s = "error" then .error
      else .pending

/-- The client-local view state held by `useOrchestrator` (React state and refs):
`steps`, `isProcessing`, `isComplete`, `reportUrl`, plus the mutable refs
`cancelledRef` and the open/closed state of the `EventSource`. -/
structure ClientState where
  steps : List ProcessStep
  isProcessing : Bool
  isComplete : Bool
  reportUrl : Option String
  cancelled : Bool
  streamOpen : Bool
deriving DecidableEq, Repr

/-- A parsed SSE message payload, with the JSON fields read by the handler
(`payload.type`, `payload.failed_at`, `payload.function`, `payload.status`,
`payload.reportUrl`). Absent fields are `none`. -/
structure SsePayload where
  typeField : Option String := none
  failed_at : Option String := none
  functionField : Option String := none
  statusField : Option String := none
  reportUrl : Option String := none
deriving DecidableEq, Repr

/-- Result of one run of the SSE `onmessage` handler: the new client state
and whether the handler invoked the polling fallback (`pollStatus`). -/
structure SseHandlerResult where
  state : ClientState
  pollRequested : Bool
deriving DecidableEq, Repr

/-- The SSE `onmessage` handler of the frontend copy
(`useOrchestrator.ts` lines 215–275), for an already-parsed JSON payload.

Branch 1 (lines 221–234): `payload?.type === 'error'` marks the step named by
`payload.failed_at || payload.function` (JS truthiness) as `error`, sets
`isProcessing = false`, closes the stream and, unless cancelled, requests
polling.  Otherwise (lines 236–271): a truthy `payload.reportUrl` is recorded;
a truthy `(function, status)` pair updates the matching step through the fixed
table; `generate_pdf_report`/`completed` sets `isComplete`, clears
`isProcessing` and closes the stream; `status === 'error'` clears
`isProcessing`. -/
def handleSseMessage (s : ClientState) (p : SsePayload) : SseHandlerResult :=
  if p.typeField = some "error" then
    let steps' :=
      match jsOrStr p.failed_at p.functionField with
      | some f => applyErrorEvent s.steps f
      | none => s.steps
    { state := { s with steps := steps', isProcessing := false, streamOpen := false },
      pollRequested := !s.cancelled }
  else
    let rep' := if jsTruthy p.reportUrl then p.reportUrl else s.reportUrl
    let steps' :=
      match p.functionField, p.statusField with
      | some fn, some st =>
          if fn = "" ∨ st = "" then s.steps else applySseStatus s.steps fn st
      | _, _ => s.steps
    let isDone := p.functionField = some "generate_pdf_report" ∧
        p.statusField = some "completed"
    let s₁ : ClientState :=
      { s with steps := steps', reportUrl := rep' }
    let s₂ : ClientState :=
      if isDone then
        { s₁ with isComplete := true, isProcessing := false, streamOpen := false }
      else s₁
    let s₃ : ClientState :=
      if p.statusField = some "error" then { s₂ with isProcessing := false } else s₂
    { state := s₃, pollRequested := false }

/-- The observable outcome of one poll fetch
(`fetch(ORCHESTRATOR_STATUS_URL…)` in `pollStatus`): a thrown network error,
a non-OK response, or an OK response whose JSON carries an optional
`reportUrl` and an optional `steps` record (modelled as `String → Option String`). -/
inductive PollResponse where
  | netError
  | notOk
  | ok (reportUrl : Option String) (stepsData : Option (String → Option String))

/-- The fixed polling cadence: `setTimeout(() => pollStatus(id), 1000)`. -/
def POLL_INTERVAL_MS : Nat := 1000

/-- One invocation of `pollStatus` (`useOrchestrator.ts` lines 286–331):
returns the new client state and `some delay` when the invocation reschedules
itself (`none` when the loop stops).

Entry guard (line 287): `cancelledRef.current || isComplete` stops the loop.
A thrown fetch / JSON error or a non-OK response changes nothing but still
reschedules (lines 327–330).  An OK response records a truthy `reportUrl`,
reconciles the steps record through the poll status table, stops without
rescheduling when `data.steps['generate_pdf_report'] === 'completed'`
(setting `isComplete`, clearing `isProcessing`), and otherwise reschedules. -/
def pollStep (s : ClientState) (r : PollResponse) : ClientState × Option Nat :=
  if s.cancelled ∨ s.isComplete then (s, none)
  else
    match r with
    | .netError => (s, some POLL_INTERVAL_MS)
    | .notOk => (s, some POLL_INTERVAL_MS)
    | .ok rep dat =>
        let s₁ : ClientState :=
          if jsTruthy rep then { s with reportUrl := rep } else s
        match dat with
        | some data =>
            let s₂ : ClientState := { s₁ with steps := applyPollSteps s₁.steps data }
            if data "generate_pdf_report" = some "completed" then
              ({ s₂ with isComplete := true, isProcessing := false }, none)
            else (s₂, some POLL_INTERVAL_MS)
        | none => (s₁, some POLL_INTERVAL_MS)

/-- An event delivered to the client during one run: an SSE message or the
outcome of one polling fetch. -/
inductive RunEvent where
  | sse (p : SsePayload)
  | poll (r : PollResponse)

/-- One step of the per-run client machine.  An SSE message is delivered only
while the `EventSource` is open (`es.close()` stops delivery); a poll outcome
always reaches `pollStatus`, whose own entry guard decides whether it acts. -/
def runStep (s : ClientState) (e : RunEvent) : ClientState :=
  match e with
  | .sse p => if s.streamOpen then (handleSseMessage s p).state else s
  | .poll r => (pollStep s r).1

/-- The client state after a finite sequence of run events. -/
def runTrace (s : ClientState) (es : List RunEvent) : ClientState :=
  es.foldl runStep s

/-- The client state after the first `i` events. -/
def stateAt (s : ClientState) (es : List RunEvent) (i : Nat) : ClientState :=
  runTrace s (es.take i)

/-- Event `i` flips `isComplete` from `false` to `true`. -/
def FlipAt (s : ClientState) (es : List RunEvent) (i : Nat) : Prop :=
  (stateAt s es i).isComplete = false ∧ (stateAt s es (i + 1)).isComplete = true

/-- The event reports `generate_pdf_report: completed`: an SSE message (not an
explicit error event) whose `(function, status)` pair is
`(generate_pdf_report, completed)`, or an OK poll response whose steps record
maps `generate_pdf_report` to `completed` (strict equality in the source). -/
def CompletionReport : RunEvent → Prop
  | .sse p => ¬p.typeField = some "error" ∧
      p.functionField = some "generate_pdf_report" ∧ p.statusField = some "completed"
  | .poll (.ok _ (some data)) => data "generate_pdf_report" = some "completed"
  | .poll _ => False

/-- The channel can act on the event in state `s`: SSE messages require the
stream to be open, poll outcomes require the run not to be cancelled. -/
def Deliverable (s : ClientState) : RunEvent → Prop
  | .sse _ => s.streamOpen = true
  | .poll _ => s.cancelled = false

/-- The handler records the event's `reportUrl` into the new state whenever the
event carries a truthy one. -/
def ReportUrlRecorded (e : RunEvent) (s' : ClientState) : Prop :=
  match e with
  | .sse p => jsTruthy p.reportUrl → s'.reportUrl = p.reportUrl
  | .poll (.ok rep _) => jsTruthy rep → s'.reportUrl = rep
  | .poll _ => True

/-! ### `waitUntilReachable` (useOrchestrator.ts lines 38–58) -/

/-- Outcome of one `fetch` probe: a thrown exception, or a response with its
`ok` flag and numeric `status`. -/
inductive FetchOutcome where
  | thrown
  | resp (ok : Bool) (statusCode : Nat)
deriving DecidableEq, Repr

/-- The environment's answers for one loop iteration of `waitUntilReachable`:
the HEAD probe outcome and the GET probe outcome (the latter consulted only
when the code actually issues the GET). -/
structure ProbeRound where
  headOutcome : FetchOutcome
  getOutcome : FetchOutcome
deriving DecidableEq, Repr

/-- Whether one loop iteration reaches `return true`: the HEAD response is OK,
or the HEAD response has status 405/501 and the follow-up GET response is OK.
A thrown fetch is swallowed by the `catch` and the iteration fails. -/
def roundSucceeds (r : ProbeRound) : Bool :=
  match r.headOutcome with
  | .thrown => false
  | .resp ok code =>
      if ok then true
      else if code = 405 ∨ code = 501 then
        match r.getOutcome with
        | .thrown => false
        | .resp gok _ => gok
      else false

/-- Whether the iteration issues the fallback GET probe: exactly when the HEAD
probe returned (did not throw) with a non-OK response of status 405 or 501. -/
def getProbeIssued (r : ProbeRound) : Bool :=
  match r.headOutcome with
  | .thrown => false
  | .resp ok code => if ok then false else decide (code = 405 ∨ code = 501)

/-- The `for (let i = 0; i < tries; i++)` loop of `waitUntilReachable`,
starting at iteration `i` with `fuel` iterations left. -/
def waitUntilReachableAux (oracle : Nat → ProbeRound) : Nat → Nat → Bool
  | _, 0 => false
  | i, fuel + 1 =>
      if roundSucceeds (oracle i) then true
      else waitUntilReachableAux oracle (i + 1) fuel

/-- `waitUntilReachable(url, tries, delayMs)`: probes until a round succeeds,
returning `false` after `tries` failed rounds.  The oracle supplies the network
outcomes per iteration index. -/
def waitUntilReachable (oracle : Nat → ProbeRound) (tries : Nat) : Bool :=
  waitUntilReachableAux oracle 0 tries

/-- Number of loop iterations actually executed, starting at iteration `i`. -/
def probeIterationsAux (oracle : Nat → ProbeRound) : Nat → Nat → Nat
  | _, 0 => 0
  | i, fuel + 1 =>
      if roundSucceeds (oracle i) then 1
      else 1 + probeIterationsAux oracle (i + 1) fuel

/-- Number of loop iterations executed by `waitUntilReachable`. -/
def probeIterations (oracle : Nat → ProbeRound) (tries : Nat) : Nat :=
  probeIterationsAux oracle 0 tries

/-! ### Auto-download effect (useOrchestrator.ts lines 103–118) -/

/-- The call site `waitUntilReachable(reportUrl, 14, 500)`. -/
def AUTO_DOWNLOAD_TRIES : Nat := 14

/-- The `delayMs` argument of the auto-download probe. -/
def AUTO_DOWNLOAD_DELAY_MS : Nat := 500

/-- Observable outcome of one invocation of the auto-download effect. -/
structure AutoDownloadResult where
  downloadStarted : Bool
  probed : Bool
  downloadAttempted : Bool
  downloadDone : Bool
deriving DecidableEq, Repr

/-- One invocation of the auto-download `useEffect` body:
`if (!reportUrl || downloadStartedRef.current) return;` guards the body;
the flag is set, the report URL is probed with `(14, 500)`, an unreachable URL
throws, the download may throw; any throw resets the flag to `false`. -/
def autoDownloadEffect (reportUrl : Option String) (started : Bool)
    (probeOracle : Nat → ProbeRound) (downloadOk : Bool) : AutoDownloadResult :=
  if !jsTruthy reportUrl ∨ started = true then
    { downloadStarted := started, probed := false,
      downloadAttempted := false, downloadDone := false }
  else if waitUntilReachable probeOracle AUTO_DOWNLOAD_TRIES then
    if downloadOk then
      { downloadStarted := true, probed := true,
        downloadAttempted := true, downloadDone := true }
    else
      { downloadStarted := false, probed := true,
        downloadAttempted := true, downloadDone := false }
  else
    { downloadStarted := false, probed := true,
      downloadAttempted := false, downloadDone := false }

/-- One invocation of the auto-download effect inside a sequence, threading
the `downloadStartedRef` flag and counting completed downloads. -/
def autoDownloadStep (reportUrl : Option String) (acc : Bool × Nat)
    (o : (Nat → ProbeRound) × Bool) : Bool × Nat :=
  let r := autoDownloadEffect reportUrl acc.1 o.1 o.2
  (r.downloadStarted, acc.2 + (if r.downloadDone then 1 else 0))

/-- A sequence of invocations of the auto-download effect for one fixed
`reportUrl`, threading the `downloadStartedRef` flag; returns the final flag
and the number of completed downloads. -/
def autoDownloadRuns (reportUrl : Option String) (started : Bool)
    (outs : List ((Nat → ProbeRound) × Bool)) : Bool × Nat :=
  outs.foldl (autoDownloadStep reportUrl) (started, 0)

/-! ### `cancel` (useOrchestrator.ts lines 383–407) -/

/-- The primitive actions performed by `cancel()`, in source order. -/
inductive CancelAction where
  | setCancelledFlag
  | closeStreamAction
  | setProcessingFalse
  | resetStepsAction
  | backendCancelRequest (jobId : String)
deriving DecidableEq, Repr

/-- The action trace of `cancel()`: four synchronous local-state actions, then
(only when `jobId` is truthy) the awaited best-effort backend cancel request. -/
def cancelTrace (jobId : Option String) : List CancelAction :=
  [.setCancelledFlag, .closeStreamAction, .setProcessingFalse, .resetStepsAction] ++
    (match jobId with
     | some j => if j = "" then [] else [.backendCancelRequest j]
     | none => [])

/-- The client state after the synchronous prefix of `cancel()`. -/
def cancelSyncState (s : ClientState) : ClientState :=
  { s with cancelled := true, streamOpen := false,
           isProcessing := false, steps := resetSteps }

/-! ### `startFromPdf` (frontend copy lines 333–358; alternate copy
`src/unnamed/part_025` lines 493–513) -/

/-- The primitive actions of a run-start workflow, in source order. -/
inductive RunAction where
  | resetUIAction
  | initCall
  | openStreamCall
  | uploadCall
  | startPipelineCall (source : String)
  | pollStart
  | abortCleanup
deriving DecidableEq, Repr

/-- Action trace of `startFromPdf` in the frontend copy: `resetUI`, then
`initOrchestratorJob`, then `openEventStream` (never throws), then
`uploadPdf`, then `startOrchestratorPipeline(…, 'pdf', …)`, then
`pollStatus`; any thrown await lands in the `catch`, which clears
`isProcessing` and closes the stream. -/
def startFromPdfTrace (initOk uploadOk startOk : Bool) : List RunAction :=
  [.resetUIAction, .initCall] ++
    (if initOk then
      [.openStreamCall, .uploadCall] ++
        (if uploadOk then
          [.startPipelineCall "pdf"] ++
            (if startOk then [.pollStart] else [.abortCleanup])
        else [.abortCleanup])
    else [.abortCleanup])

/-- Action trace of `startFromPdf` in the alternate copy
(`src/unnamed/part_025`): `resetUI`, then `uploadPdf`, then
`initOrchestratorJob`, then `openEventStream`, then
`startOrchestratorPipeline(…, 'stored', …)`, then `pollStatus`. -/
def startFromPdfAltTrace (uploadOk initOk startOk : Bool) : List RunAction :=
  [.resetUIAction, .uploadCall] ++
    (if uploadOk then
      [.initCall] ++
        (if initOk then
          [.openStreamCall, .startPipelineCall "stored"] ++
            (if startOk then [.pollStart] else [.abortCleanup])
        else [.abortCleanup])
    else [.abortCleanup])

/-- Effect of a run action on the `isProcessing` flag. -/
def runActionProcessing (b : Bool) : RunAction → Bool
  | .resetUIAction => true
  | .abortCleanup => false
  | _ => b

/-- `isProcessing` after a run-start action trace. -/
def processingAfter (trace : List RunAction) : Bool :=
  trace.foldl runActionProcessing false

/-! ### `uploadPdf` and the scan endpoint (frontend copy lines 129–137;
constants.ts; alternate copy `src/unnamed/part_025` lines 317–338) -/

/-- `DEFAULT_API_BASE` from constants.ts. -/
def DEFAULT_API_BASE : String := "https://curricalign-production.up.railway.app/"

/-- The `.replace(/\/$/, '')` applied to the API base: drops one trailing
slash when present. -/
def stripTrailingSlash (s : String) : String :=
  if s.data.getLast? = some '/' then { data := s.data.dropLast } else s

/-- `API_BASE` from constants.ts: the `NEXT_PUBLIC_API_BASE` environment value
when truthy, else the default, with a trailing slash stripped. -/
def apiBase (env : Option String) : String :=
  stripTrailingSlash (match env with
    | some e => if e = "" then DEFAULT_API_BASE else e
    | none => DEFAULT_API_BASE)

/-- `PDF_UPLOAD_URL` from constants.ts: `` `${API_BASE}/api/scan-pdf` ``. -/
def pdfUploadUrl (env : Option String) : String :=
  apiBase env ++ "/api/scan-pdf"

/-- The HTTP request built by `uploadPdf` (frontend copy): method, URL, and
the name under which the file is appended to the multipart form. -/
structure UploadRequest where
  url : String
  method : String
  formFieldName : String
deriving DecidableEq, Repr

/-- The request of the frontend copy's `uploadPdf`: `form.append('file', file)`
posted to `PDF_UPLOAD_URL`. -/
def uploadPdfRequest (env : Option String) : UploadRequest :=
  { url := pdfUploadUrl env, method := "POST", formFieldName := "file" }

/-- `uploadPdf` throws iff the response is not OK. -/
def uploadPdfThrows (resOk : Bool) : Bool := !resOk

/-- The multipart field name used by the alternate copy's `uploadPdf`
(`form.append('pdf', file)`, documented there as the name the backend's
`scan_pdf_endpoint(pdf: UploadFile = File(...))` expects). -/
def uploadPdfAltFormFieldName : String := "pdf"

/-- The alternate copy's `uploadPdf` also throws iff the response is not OK. -/
def uploadPdfAltThrows (resOk : Bool) : Bool := !resOk

/-! ### Step events for the last-event-wins property (C1) -/

/-- The two delivery channels updating the step array. -/
inductive Channel where
  | stream
  | pollChannel
deriving DecidableEq, Repr

/-- A `(function, status)` event together with its delivery channel. -/
structure StepEvent where
  ch : Channel
  fn : String
  st : String
deriving DecidableEq, Repr

/-- The fixed status table of the event's channel. -/
def eventTable (e : StepEvent) : Option StepStatus :=
  match e.ch with
  | .stream => sseStatusMap e.st
  | .pollChannel => pollStatusMap e.st

/-- A valid event: its status is recognised by its channel's fixed table. -/
def ValidStepEvent (e : StepEvent) : Prop :=
  (eventTable e).isSome = true

instance (e : StepEvent) : Decidable (ValidStepEvent e) := by
  unfold ValidStepEvent
  infer_instance

/-- Applying one step event to the step array through the corresponding
handler: the SSE status update, or the poll reconciler fed a record binding
only the event's function. -/
def applyStepEvent (steps : List ProcessStep) (e : StepEvent) : List ProcessStep :=
  match e.ch with
  | .stream => applySseStatus steps e.fn e.st
  | .pollChannel =>
      applyPollSteps steps fun f => if f = e.fn then some e.st else none

/-- Pointwise form of `applyStepEvent` on a single step. -/
def stepStatusUpdate (e : StepEvent) (s : ProcessStep) : ProcessStep :=
  match e.ch with
  | .stream =>
      if s.fn = e.fn then { s with status := (sseStatusMap e.st).getD s.status } else s
  | .pollChannel =>
      if s.fn = e.fn then
        if e.st = "" then s
        else { s with status := (pollStatusMap e.st).getD s.status }
      else s

/-- The last event of the sequence addressed to function `fn`. -/
def lastFor (fn : String) (es : List StepEvent) : Option StepEvent :=
  (es.filter fun e => e.fn == fn).getLast?

/-- The frame of a step: everything but its status. -/
def stepFrame (s : ProcessStep) : String × String × String :=
  (s.id, s.name, s.fn)

/-! ## Shared lemmas -/

theorem stepFrame_withStatus (s : ProcessStep) (st : StepStatus) :
    stepFrame { s with status := st } = stepFrame s := rfl

theorem stepFrame_eq_iff {t s : ProcessStep} :
    stepFrame t = stepFrame s ↔ t.id = s.id ∧ t.name = s.name ∧ t.fn = s.fn := by
  cases t; cases s; simp [stepFrame]

theorem eq_setStatus_of_frame {t s : ProcessStep} (hf : stepFrame t = stepFrame s)
    {x : StepStatus} (hs : t.status = x) : t = { s with status := x } := by
  cases t; cases s
  simp only [stepFrame, Prod.mk.injEq] at hf
  simp_all

theorem applySseStatus_frame (steps : List ProcessStep) (fn st : String) :
    (applySseStatus steps fn st).map stepFrame = steps.map stepFrame := by
  unfold applySseStatus
  rw [List.map_map]
  apply List.map_congr_left
  intro a _
  by_cases h : a.fn = fn <;> simp [Function.comp, h, stepFrame]

theorem applyPollSteps_frame (steps : List ProcessStep) (data : String → Option String) :
    (applyPollSteps steps data).map stepFrame = steps.map stepFrame := by
  unfold applyPollSteps
  rw [List.map_map]
  apply List.map_congr_left
  intro a _
  cases h : data a.fn with
  | none => simp [Function.comp, h]
  | some raw =>
      by_cases he : raw = "" <;> simp [Function.comp, h, he, stepFrame]

theorem applyErrorEvent_frame (steps : List ProcessStep) (f : String) :
    (applyErrorEvent steps f).map stepFrame = steps.map stepFrame := by
  unfold applyErrorEvent
  rw [List.map_map]
  apply List.map_congr_left
  intro a _
  by_cases h : a.fn = f <;> simp [Function.comp, h, stepFrame]

theorem applySseStatus_of_unrecognized (steps : List ProcessStep) (fn st : String)
    (h : sseStatusMap st = none) : applySseStatus steps fn st = steps := by
  unfold applySseStatus
  have hid : ∀ a ∈ steps,
      (if a.fn = fn then { a with status := (sseStatusMap st).getD a.status } else a) = a := by
    intro a _
    by_cases hfn : a.fn = fn
    · rw [if_pos hfn, h]
      rfl
    · rw [if_neg hfn]
  rw [List.map_congr_left hid]
  exact List.map_id' steps

theorem applySseStatus_of_nomatch (steps : List ProcessStep) (fn st : String)
    (h : ∀ s ∈ steps, s.fn ≠ fn) : applySseStatus steps fn st = steps := by
  unfold applySseStatus
  have hid : ∀ a ∈ steps,
      (if a.fn = fn then { a with status := (sseStatusMap st).getD a.status } else a) = a := by
    intro a ha
    rw [if_neg (h a ha)]
  rw [List.map_congr_left hid]
  exact List.map_id' steps

theorem applyPollSteps_of_unrecognized (steps : List ProcessStep)
    (data : String → Option String)
    (h : ∀ f v, data f = some v → pollStatusMap v = none) :
    applyPollSteps steps data = steps := by
  unfold applyPollSteps
  have hid : ∀ a ∈ steps,
      (match data a.fn with
        | some raw =>
            if raw = "" then a
            else { a with status := (pollStatusMap raw).getD a.status }
        | none => a) = a := by
    intro a _
    cases hd : data a.fn with
    | none => rfl
    | some raw =>
        show (if raw = "" then a
          else { a with status := (pollStatusMap raw).getD a.status }) = a
        by_cases he : raw = ""
        · rw [if_pos he]
        · rw [if_neg he, h a.fn raw hd]
          rfl
  rw [List.map_congr_left hid]
  exact List.map_id' steps

theorem applyPollSteps_of_nomatch (steps : List ProcessStep)
    (data : String → Option String) (h : ∀ s ∈ steps, data s.fn = none) :
    applyPollSteps steps data = steps := by
  unfold applyPollSteps
  have hid : ∀ a ∈ steps,
      (match data a.fn with
        | some raw =>
            if raw = "" then a
            else { a with status := (pollStatusMap raw).getD a.status }
        | none => a) = a := by
    intro a ha
    rw [h a ha]
  rw [List.map_congr_left hid]
  exact List.map_id' steps

theorem applyStepEvent_eq_map (steps : List ProcessStep) (e : StepEvent) :
    applyStepEvent steps e = steps.map (stepStatusUpdate e) := by
  cases e with
  | mk ch fn st =>
      cases ch with
      | stream => rfl
      | pollChannel =>
          unfold applyStepEvent applyPollSteps
          apply List.map_congr_left
          intro a _
          by_cases h : a.fn = fn <;> simp [stepStatusUpdate, h]

theorem foldl_applyStepEvent (es : List StepEvent) (steps : List ProcessStep) :
    es.foldl applyStepEvent steps =
      steps.map fun s => es.foldl (fun a e => stepStatusUpdate e a) s := by
  induction es generalizing steps with
  | nil => simp
  | cons e es ih =>
      rw [List.foldl_cons, applyStepEvent_eq_map, ih, List.map_map]
      rfl

theorem stepStatusUpdate_frame (e : StepEvent) (s : ProcessStep) :
    stepFrame (stepStatusUpdate e s) = stepFrame s := by
  cases e with
  | mk ch fn st =>
      cases ch <;> unfold stepStatusUpdate <;> dsimp only
      · by_cases h : s.fn = fn <;> simp [h, stepFrame]
      · by_cases h : s.fn = fn
        · by_cases he : st = "" <;> simp [h, he, stepFrame]
        · simp [h]

theorem foldl_stepStatusUpdate_frame (es : List StepEvent) (s : ProcessStep) :
    stepFrame (es.foldl (fun a e => stepStatusUpdate e a) s) = stepFrame s := by
  induction es generalizing s with
  | nil => rfl
  | cons e es ih => rw [List.foldl_cons, ih, stepStatusUpdate_frame]

theorem foldl_stepStatusUpdate_status (s : ProcessStep) (es : List StepEvent)
    (hv : ∀ e ∈ es, ValidStepEvent e) :
    (es.foldl (fun a e => stepStatusUpdate e a) s).status =
      match lastFor s.fn es with
      | some e => (eventTable e).getD s.status
      | none => s.status := by
  induction es using List.reverseRecOn with
  | nil => rfl
  | append_singleton es e ih =>
      have hv' : ∀ x ∈ es, ValidStepEvent x := fun x hx => hv x (by simp [hx])
      have hve : ValidStepEvent e := hv e (by simp)
      obtain ⟨m, hm⟩ := Option.isSome_iff_exists.mp hve
      rw [List.foldl_append, List.foldl_cons, List.foldl_nil]
      have hfn : (es.foldl (fun a e => stepStatusUpdate e a) s).fn = s.fn := by
        have := foldl_stepStatusUpdate_frame es s
        exact (stepFrame_eq_iff.mp this).2.2
      by_cases hmatch : e.fn = s.fn
      · have hlast : lastFor s.fn (es ++ [e]) = some e := by
          unfold lastFor
          rw [List.filter_append]
          have hf1 : List.filter (fun x => x.fn == s.fn) [e] = [e] := by
            simp [List.filter, hmatch]
          rw [hf1, List.getLast?_concat]
        rw [hlast]
        set t := es.foldl (fun a e => stepStatusUpdate e a) s with ht
        cases e with
        | mk ch fn st =>
            have hfneq : fn = s.fn := hmatch
            have hcond : t.fn = fn := by rw [hfn, hfneq]
            cases ch with
            | stream =>
                simp only [eventTable] at hm
                show (if t.fn = fn then
                    { t with status := (sseStatusMap st).getD t.status } else t).status =
                  (eventTable { ch := Channel.stream, fn := fn, st := st }).getD s.status
                rw [if_pos hcond]
                simp only [eventTable]
                simp [hm]
            | pollChannel =>
                simp only [eventTable] at hm
                have hst : ¬st = "" := by
                  intro h
                  rw [h] at hm
                  simp [pollStatusMap] at hm
                show (if t.fn = fn then
                    (if st = "" then t
                     else { t with status := (pollStatusMap st).getD t.status })
                    else t).status =
                  (eventTable { ch := Channel.pollChannel, fn := fn, st := st }).getD s.status
                rw [if_pos hcond, if_neg hst]
                simp only [eventTable]
                simp [hm]
      · have hlast : lastFor s.fn (es ++ [e]) = lastFor s.fn es := by
          unfold lastFor
          rw [List.filter_append]
          have hf0 : List.filter (fun x => x.fn == s.fn) [e] = [] := by
            have hb : (e.fn == s.fn) = false := beq_eq_false_iff_ne.mpr hmatch
            simp [List.filter, hb]
          rw [hf0, List.append_nil]
        rw [hlast]
        have hne : ¬(es.foldl (fun a e => stepStatusUpdate e a) s).fn = e.fn := by
          rw [hfn]
          intro h
          exact hmatch h.symm
        have hupd : stepStatusUpdate e (es.foldl (fun a e => stepStatusUpdate e a) s) =
            es.foldl (fun a e => stepStatusUpdate e a) s := by
          cases e with
          | mk ch fn st =>
              cases ch with
              | stream =>
                  show (if (es.foldl (fun a e => stepStatusUpdate e a) s).fn = fn then _ else
                    es.foldl (fun a e => stepStatusUpdate e a) s) =
                    es.foldl (fun a e => stepStatusUpdate e a) s
                  rw [if_neg hne]
              | pollChannel =>
                  show (if (es.foldl (fun a e => stepStatusUpdate e a) s).fn = fn then _ else
                    es.foldl (fun a e => stepStatusUpdate e a) s) =
                    es.foldl (fun a e => stepStatusUpdate e a) s
                  rw [if_neg hne]
        rw [hupd]
        exact ih hv'

/-! ## Claims -/

/-- C9: every step-array transformer of the client — `resetUI`/`cancel`
(which install `resetSteps`), the SSE status handler, the SSE error-event
handler, and the poll reconciler — preserves the array's length, order, and
each entry's `id`, `name`, and `fn` (only `status` changes); `resetSteps`
keeps the 7 frames of `INITIAL_STEPS`; and a message whose function matches
no step's `fn` leaves the array unchanged. -/
theorem C9_theorem :
    (∀ (steps : List ProcessStep) (fn st : String),
        (applySseStatus steps fn st).map stepFrame = steps.map stepFrame ∧
        (applySseStatus steps fn st).length = steps.length) ∧
    (∀ (steps : List ProcessStep) (data : String → Option String),
        (applyPollSteps steps data).map stepFrame = steps.map stepFrame ∧
        (applyPollSteps steps data).length = steps.length) ∧
    (∀ (steps : List ProcessStep) (f : String),
        (applyErrorEvent steps f).map stepFrame = steps.map stepFrame ∧
        (applyErrorEvent steps f).length = steps.length) ∧
    (resetSteps.map stepFrame = INITIAL_STEPS.map stepFrame ∧
      resetSteps.length = 7 ∧ INITIAL_STEPS.length = 7) ∧
    (∀ (steps : List ProcessStep) (fn st : String),
        (∀ s ∈ steps, s.fn ≠ fn) → applySseStatus steps fn st = steps) ∧
    (∀ (steps : List ProcessStep) (data : String → Option String),
        (∀ s ∈ steps, data s.fn = none) → applyPollSteps steps data = steps) := by
  refine ⟨?_, ?_, ?_, ?_, ?_, ?_⟩
  · intro steps fn st
    exact ⟨applySseStatus_frame steps fn st, by simp [applySseStatus]⟩
  · intro steps data
    exact ⟨applyPollSteps_frame steps data, by simp [applyPollSteps]⟩
  · intro steps f
    exact ⟨applyErrorEvent_frame steps f, by simp [applyErrorEvent]⟩
  · refine ⟨?_, by decide, by decide⟩
    decide
  · exact applySseStatus_of_nomatch
  · exact applyPollSteps_of_nomatch

/-- C9 witness: the no-match clauses applied to `INITIAL_STEPS` with a
function name that matches no step. -/
theorem C9_witness :
    applySseStatus INITIAL_STEPS "no_such_function" "started" = INITIAL_STEPS ∧
    applyPollSteps INITIAL_STEPS (fun _ => none) = INITIAL_STEPS := by
  refine ⟨C9_theorem.2.2.2.2.1 INITIAL_STEPS "no_such_function" "started" ?_,
    C9_theorem.2.2.2.2.2 INITIAL_STEPS (fun _ => none) ?_⟩
  · decide
  · intro s _
    rfl

/-- C1 (amended): every incoming `(function, status)` message updates only the
step whose `fn` equals the message's function, mapping the status through the
fixed tables (`started → in-progress`, `completed → completed`,
`error → error` on the stream; additionally `pending → pending` and
`in_progress → in-progress` on the poll); an unrecognized status value leaves
the step at its previous status in both channels; hence after any finite
sequence of valid events, each step's status equals the table image of the
last event received for its `fn`. -/
theorem C1_theorem (steps : List ProcessStep) (es : List StepEvent)
    (hv : ∀ e ∈ es, ValidStepEvent e) :
    (sseStatusMap "started" = some StepStatus.inProgress ∧
      sseStatusMap "completed" = some StepStatus.completed ∧
      sseStatusMap "error" = some StepStatus.error ∧
      pollStatusMap "pending" = some StepStatus.pending ∧
      pollStatusMap "in_progress" = some StepStatus.inProgress ∧
      pollStatusMap "completed" = some StepStatus.completed ∧
      pollStatusMap "error" = some StepStatus.error) ∧
    (∀ fn st, sseStatusMap st = none → applySseStatus steps fn st = steps) ∧
    (∀ data : String → Option String,
        (∀ f v, data f = some v → pollStatusMap v = none) →
        applyPollSteps steps data = steps) ∧
    (∀ i : Nat,
        (es.foldl applyStepEvent steps)[i]? =
          (steps[i]?).map fun s =>
            { s with status :=
                match lastFor s.fn es with
                | some e => (eventTable e).getD s.status
                | none => s.status }) := by
  refine ⟨⟨rfl, rfl, rfl, rfl, rfl, rfl, rfl⟩,
    applySseStatus_of_unrecognized steps,
    applyPollSteps_of_unrecognized steps, ?_⟩
  intro i
  rw [foldl_applyStepEvent, List.getElem?_map]
  cases h : steps[i]? with
  | none => rfl
  | some s =>
      show some (es.foldl (fun a e => stepStatusUpdate e a) s) = _
      exact congrArg some
        (eq_setStatus_of_frame (foldl_stepStatusUpdate_frame es s)
          (foldl_stepStatusUpdate_status s es hv))

/-- C1 witness: one valid `started` stream event for the first step, applied
to `INITIAL_STEPS`, lands the first step on the table image of that event. -/
theorem C1_witness :
    (([⟨Channel.stream, "scrape_jobs_from_google_jobs", "started"⟩] :
        List StepEvent).foldl applyStepEvent INITIAL_STEPS)[0]? =
      (INITIAL_STEPS[0]?).map (fun s =>
        { s with status :=
            match (lastFor s.fn
                [⟨Channel.stream, "scrape_jobs_from_google_jobs", "started"⟩]) with
            | some e => (eventTable e).getD s.status
            | none => s.status }) :=
  (C1_theorem INITIAL_STEPS
      [⟨Channel.stream, "scrape_jobs_from_google_jobs", "started"⟩]
      (by decide)).2.2.2 0

/-- C1 counterexample: in the cited code an unrecognized status value never
defaults a step to `pending`: both the SSE handler and the poll reconciler
leave the step at its previous status (here `in-progress`), refuting the
claim's "defaults a fallback step to pending". -/
theorem C1_counterexample :
    applySseStatus
        [{ id := "1", name := "Scraping Jobs", fn := "scrape_jobs_from_google_jobs",
           status := StepStatus.inProgress }]
        "scrape_jobs_from_google_jobs" "unrecognized_status" =
      [{ id := "1", name := "Scraping Jobs", fn := "scrape_jobs_from_google_jobs",
         status := StepStatus.inProgress }] ∧
    applyPollSteps
        [{ id := "1", name := "Scraping Jobs", fn := "scrape_jobs_from_google_jobs",
           status := StepStatus.inProgress }]
        (fun f => if f = "scrape_jobs_from_google_jobs"
          then some "unrecognized_status" else none) =
      [{ id := "1", name := "Scraping Jobs", fn := "scrape_jobs_from_google_jobs",
         status := StepStatus.inProgress }] ∧
    sseStatusMap "unrecognized_status" = none ∧
    pollStatusMap "unrecognized_status" = none ∧
    (applySseStatus
        [{ id := "1", name := "Scraping Jobs", fn := "scrape_jobs_from_google_jobs",
           status := StepStatus.inProgress }]
        "scrape_jobs_from_google_jobs" "unrecognized_status").map
        (fun x => x.status) = [StepStatus.inProgress] := by
  refine ⟨rfl, rfl, rfl, rfl, rfl⟩

/-- Reduction of the SSE handler on an explicit error event naming a failed
function. -/
theorem handleSseMessage_error (s : ClientState) (p : SsePayload) (f : String)
    (htype : p.typeField = some "error")
    (hf : jsOrStr p.failed_at p.functionField = some f) :
    handleSseMessage s p =
      { state :=
          { s with steps := applyErrorEvent s.steps f,
                   isProcessing := false, streamOpen := false },
        pollRequested := !s.cancelled } := by
  unfold handleSseMessage
  rw [if_pos htype, hf]

/-- C4: a stream event with `type = "error"` naming failed function `f` sets
exactly the step whose `fn = f` to `error` and returns every other step
unchanged (same `id`, `name`, `fn`, `status`), sets `isProcessing = false`,
closes the stream, and requests the polling fallback iff not cancelled;
`isComplete` and `reportUrl` are untouched. -/
theorem C4_theorem (s : ClientState) (p : SsePayload) (f : String)
    (htype : p.typeField = some "error")
    (hf : jsOrStr p.failed_at p.functionField = some f) :
    ((handleSseMessage s p).state.isProcessing = false) ∧
    ((handleSseMessage s p).state.streamOpen = false) ∧
    ((handleSseMessage s p).pollRequested = !s.cancelled) ∧
    ((handleSseMessage s p).state.isComplete = s.isComplete) ∧
    ((handleSseMessage s p).state.reportUrl = s.reportUrl) ∧
    (∀ i : Nat,
        (handleSseMessage s p).state.steps[i]? =
          (s.steps[i]?).map fun x =>
            if x.fn = f then { x with status := StepStatus.error } else x) := by
  rw [handleSseMessage_error s p f htype hf]
  refine ⟨rfl, rfl, rfl, rfl, rfl, ?_⟩
  intro i
  show (applyErrorEvent s.steps f)[i]? =
    (s.steps[i]?).map fun x =>
      if x.fn = f then { x with status := StepStatus.error } else x
  unfold applyErrorEvent
  rw [List.getElem?_map]

/-- C4 witness: a concrete error event naming step 2's function clears
`isProcessing` and marks exactly that step. -/
theorem C4_witness :
    ((handleSseMessage
        { steps := INITIAL_STEPS, isProcessing := true, isComplete := false,
          reportUrl := none, cancelled := false, streamOpen := true }
        { typeField := some "error",
          failed_at := some "extract_skills_from_jobs" }).state.isProcessing = false) ∧
    ((handleSseMessage
        { steps := INITIAL_STEPS, isProcessing := true, isComplete := false,
          reportUrl := none, cancelled := false, streamOpen := true }
        { typeField := some "error",
          failed_at := some "extract_skills_from_jobs" }).state.steps[1]? =
      (INITIAL_STEPS[1]?).map fun x =>
        if x.fn = "extract_skills_from_jobs"
        then { x with status := StepStatus.error } else x) := by
  refine ⟨(C4_theorem
      { steps := INITIAL_STEPS, isProcessing := true, isComplete := false,
        reportUrl := none, cancelled := false, streamOpen := true }
      { typeField := some "error", failed_at := some "extract_skills_from_jobs" }
      "extract_skills_from_jobs" rfl rfl).1,
    (C4_theorem
      { steps := INITIAL_STEPS, isProcessing := true, isComplete := false,
        reportUrl := none, cancelled := false, streamOpen := true }
      { typeField := some "error", failed_at := some "extract_skills_from_jobs" }
      "extract_skills_from_jobs" rfl rfl).2.2.2.2.2 1⟩

/-- C3: for every client state, the synchronous prefix of `cancel()` sets
`isProcessing = false`, resets all 7 steps to `pending`, sets the cancelled
flag and closes the event stream; the best-effort backend cancel request, when
issued at all, appears in the action trace only after those four synchronous
actions. -/
theorem C3_theorem (s : ClientState) (jid : Option String) :
    (cancelSyncState s).isProcessing = false ∧
    (cancelSyncState s).cancelled = true ∧
    (cancelSyncState s).streamOpen = false ∧
    (cancelSyncState s).steps = resetSteps ∧
    resetSteps.length = 7 ∧
    (∀ x ∈ resetSteps, x.status = StepStatus.pending) ∧
    ((cancelTrace jid).take 4 =
      [CancelAction.setCancelledFlag, CancelAction.closeStreamAction,
       CancelAction.setProcessingFalse, CancelAction.resetStepsAction]) ∧
    (∀ (i : Nat) (j : String),
        (cancelTrace jid)[i]? = some (CancelAction.backendCancelRequest j) → 4 ≤ i) := by
  refine ⟨rfl, rfl, rfl, rfl, by decide, by decide, ?_, ?_⟩
  · cases jid with
    | none => rfl
    | some j =>
        by_cases hj : j = "" <;> simp [cancelTrace, hj]
  · intro i j h
    by_contra hcon
    push_neg at hcon
    have hbase : (cancelTrace jid)[i]? =
        ([CancelAction.setCancelledFlag, CancelAction.closeStreamAction,
          CancelAction.setProcessingFalse, CancelAction.resetStepsAction] :
            List CancelAction)[i]? := by
      unfold cancelTrace
      exact List.getElem?_append_left (by simpa using hcon)
    rw [hbase] at h
    interval_cases i <;> simp at h

/-- C3 witness: `cancel()` on a mid-run state with a live job id: the
synchronous prefix clears `isProcessing`, and the backend request sitting at
trace position 4 indeed has index at least 4. -/
theorem C3_witness :
    (cancelSyncState
        { steps := INITIAL_STEPS, isProcessing := true, isComplete := false,
          reportUrl := none, cancelled := false, streamOpen := true }).isProcessing
      = false ∧
    4 ≤ 4 :=
  ⟨(C3_theorem
      { steps := INITIAL_STEPS, isProcessing := true, isComplete := false,
        reportUrl := none, cancelled := false, streamOpen := true }
      (some "job-1")).1,
   (C3_theorem
      { steps := INITIAL_STEPS, isProcessing := true, isComplete := false,
        reportUrl := none, cancelled := false, streamOpen := true }
      (some "job-1")).2.2.2.2.2.2.2 4 "job-1" rfl⟩

theorem waitUntilReachableAux_true_iff (oracle : Nat → ProbeRound) :
    ∀ (fuel i : Nat),
      waitUntilReachableAux oracle i fuel = true ↔
        ∃ j, j < fuel ∧ roundSucceeds (oracle (i + j)) = true := by
  intro fuel
  induction fuel with
  | zero =>
      intro i
      simp [waitUntilReachableAux]
  | succ fuel ih =>
      intro i
      unfold waitUntilReachableAux
      by_cases h : roundSucceeds (oracle i) = true
      · simp only [h, if_true, true_iff]
        exact ⟨0, Nat.succ_pos fuel, by simpa using h⟩
      · simp only [h, if_false, Bool.false_eq_true]
        rw [ih (i + 1)]
        constructor
        · rintro ⟨j, hj, hr⟩
          exact ⟨j + 1, by omega, by
            have : i + 1 + j = i + (j + 1) := by omega
            rwa [this] at hr⟩
        · rintro ⟨j, hj, hr⟩
          cases j with
          | zero =>
              exact absurd (by simpa using hr) h
          | succ k =>
              exact ⟨k, by omega, by
                have : i + (k + 1) = i + 1 + k := by omega
                rwa [this] at hr⟩

theorem probeIterationsAux_le (oracle : Nat → ProbeRound) :
    ∀ (fuel i : Nat), probeIterationsAux oracle i fuel ≤ fuel := by
  intro fuel
  induction fuel with
  | zero => intro i; simp [probeIterationsAux]
  | succ fuel ih =>
      intro i
      unfold probeIterationsAux
      by_cases h : roundSucceeds (oracle i) = true
      · simp [h]
      · simp only [h, if_false, Bool.false_eq_true]
        have := ih (i + 1)
        omega

/-- C10: `waitUntilReachable` executes at most `tries` probe iterations; it
returns `true` exactly when some iteration below `tries` succeeds (a probe
response is OK); the fallback GET probe is issued only when the HEAD probe
returned a non-OK response with status 405 or 501; a thrown fetch never
succeeds a round (it is swallowed and retried); and when every round fails
the function returns `false`. -/
theorem C10_theorem (oracle : Nat → ProbeRound) (tries : Nat) :
    probeIterations oracle tries ≤ tries ∧
    (waitUntilReachable oracle tries = true ↔
      ∃ j, j < tries ∧ roundSucceeds (oracle j) = true) ∧
    ((∀ j, j < tries → roundSucceeds (oracle j) = false) →
      waitUntilReachable oracle tries = false) ∧
    (∀ r : ProbeRound, getProbeIssued r = true →
      ∃ code, r.headOutcome = FetchOutcome.resp false code ∧
        (code = 405 ∨ code = 501)) ∧
    (∀ g : FetchOutcome,
      roundSucceeds { headOutcome := FetchOutcome.thrown, getOutcome := g } = false) := by
  have hiff : waitUntilReachable oracle tries = true ↔
      ∃ j, j < tries ∧ roundSucceeds (oracle j) = true := by
    unfold waitUntilReachable
    rw [waitUntilReachableAux_true_iff oracle tries 0]
    simp
  refine ⟨probeIterationsAux_le oracle tries 0, hiff, ?_, ?_, fun g => rfl⟩
  · intro hall
    by_contra hne
    have : waitUntilReachable oracle tries = true := by
      cases h : waitUntilReachable oracle tries with
      | true => rfl
      | false => exact absurd h hne
    obtain ⟨j, hj, hr⟩ := hiff.mp this
    rw [hall j hj] at hr
    exact Bool.false_ne_true hr
  · intro r hr
    cases r with
    | mk ho go =>
        cases ho with
        | thrown => exact absurd hr (by simp [getProbeIssued])
        | resp ok code =>
            cases ok with
            | true => exact absurd hr (by simp [getProbeIssued])
            | false =>
                refine ⟨code, rfl, ?_⟩
                have : decide (code = 405 ∨ code = 501) = true := by
                  simpa [getProbeIssued] using hr
                exact of_decide_eq_true this

/-- C10 witness: with three probe rounds that all throw, the probe terminates
and reports `false`. -/
theorem C10_witness :
    waitUntilReachable
        (fun _ => { headOutcome := FetchOutcome.thrown,
                    getOutcome := FetchOutcome.thrown }) 3 = false :=
  (C10_theorem
      (fun _ => { headOutcome := FetchOutcome.thrown,
                  getOutcome := FetchOutcome.thrown }) 3).2.2.1
    (by intro j _; rfl)

/-- C8: one `pollStatus` invocation either stops (`none`) or reschedules
exactly 1000 ms later; a failed request (network error or non-OK response)
still reschedules when the run is neither cancelled nor complete; and the
loop stops precisely when the cancelled flag is set, `isComplete` is observed
true, or the response's steps record reports `generate_pdf_report` as
`completed`. -/
theorem C8_theorem (s : ClientState) (r : PollResponse) :
    ((pollStep s r).2 = none ∨ (pollStep s r).2 = some POLL_INTERVAL_MS) ∧
    POLL_INTERVAL_MS = 1000 ∧
    (s.cancelled = false → s.isComplete = false →
      (pollStep s PollResponse.netError).2 = some 1000 ∧
      (pollStep s PollResponse.notOk).2 = some 1000) ∧
    ((pollStep s r).2 = none ↔
      (s.cancelled = true ∨ s.isComplete = true ∨
        ∃ rep data, r = PollResponse.ok rep (some data) ∧
          data "generate_pdf_report" = some "completed")) := by
  by_cases hg : (s.cancelled = true ∨ s.isComplete = true)
  · have h1 : pollStep s r = (s, none) := by
      unfold pollStep
      rw [if_pos hg]
    refine ⟨Or.inl (by rw [h1]), rfl, ?_, ?_⟩
    · intro hc hi
      rcases hg with h | h
      · rw [hc] at h
        exact absurd h (by simp)
      · rw [hi] at h
        exact absurd h (by simp)
    · rw [h1]
      constructor
      · intro _
        rcases hg with h | h
        · exact Or.inl h
        · exact Or.inr (Or.inl h)
      · intro _
        rfl
  · push_neg at hg
    obtain ⟨hc, hi⟩ := hg
    have hg' : ¬(s.cancelled = true ∨ s.isComplete = true) := by
      rintro (h | h)
      · exact hc h
      · exact hi h
    have hnet : (pollStep s PollResponse.netError).2 = some POLL_INTERVAL_MS := by
      unfold pollStep
      rw [if_neg hg']
    have hnok : (pollStep s PollResponse.notOk).2 = some POLL_INTERVAL_MS := by
      unfold pollStep
      rw [if_neg hg']
    cases r with
    | netError =>
        refine ⟨Or.inr hnet, rfl, fun _ _ => ⟨hnet, hnok⟩, ?_⟩
        constructor
        · intro h
          rw [hnet] at h
          exact absurd h (by simp)
        · rintro (h | h | ⟨rep, data, heq, _⟩)
          · exact absurd h hc
          · exact absurd h hi
          · exact PollResponse.noConfusion heq
    | notOk =>
        refine ⟨Or.inr hnok, rfl, fun _ _ => ⟨hnet, hnok⟩, ?_⟩
        constructor
        · intro h
          rw [hnok] at h
          exact absurd h (by simp)
        · rintro (h | h | ⟨rep, data, heq, _⟩)
          · exact absurd h hc
          · exact absurd h hi
          · exact PollResponse.noConfusion heq
    | ok rep dat =>
        cases dat with
        | none =>
            have hsnd : (pollStep s (PollResponse.ok rep none)).2 =
                some POLL_INTERVAL_MS := by
              unfold pollStep
              rw [if_neg hg']
            refine ⟨Or.inr hsnd, rfl, fun _ _ => ⟨hnet, hnok⟩, ?_⟩
            constructor
            · intro h
              rw [hsnd] at h
              exact absurd h (by simp)
            · rintro (h | h | ⟨rep', data', heq, _⟩)
              · exact absurd h hc
              · exact absurd h hi
              · injection heq with h1 h2
                exact Option.noConfusion h2
        | some data =>
            by_cases hd : data "generate_pdf_report" = some "completed"
            · have hsnd : (pollStep s (PollResponse.ok rep (some data))).2 = none := by
                unfold pollStep
                rw [if_neg hg']
                show (if data "generate_pdf_report" = some "completed"
                  then _ else _ : ClientState × Option Nat).2 = none
                rw [if_pos hd]
              refine ⟨Or.inl hsnd, rfl, fun _ _ => ⟨hnet, hnok⟩, ?_⟩
              constructor
              · intro _
                exact Or.inr (Or.inr ⟨rep, data, rfl, hd⟩)
              · intro _
                exact hsnd
            · have hsnd : (pollStep s (PollResponse.ok rep (some data))).2 =
                  some POLL_INTERVAL_MS := by
                unfold pollStep
                rw [if_neg hg']
                show (if data "generate_pdf_report" = some "completed"
                  then _ else _ : ClientState × Option Nat).2 = some POLL_INTERVAL_MS
                rw [if_neg hd]
              refine ⟨Or.inr hsnd, rfl, fun _ _ => ⟨hnet, hnok⟩, ?_⟩
              constructor
              · intro h
                rw [hsnd] at h
                exact absurd h (by simp)
              · rintro (h | h | ⟨rep', data', heq, hdone⟩)
                · exact absurd h hc
                · exact absurd h hi
                · injection heq with h1 h2
                  injection h2 with h3
                  rw [h3] at hd
                  exact absurd hdone hd

/-- C8 witness: a failed poll in a live run reschedules at the fixed 1000 ms
cadence. -/
theorem C8_witness :
    (pollStep
        { steps := INITIAL_STEPS, isProcessing := true, isComplete := false,
          reportUrl := none, cancelled := false, streamOpen := false }
        PollResponse.netError).2 = some 1000 :=
  ((C8_theorem
      { steps := INITIAL_STEPS, isProcessing := true, isComplete := false,
        reportUrl := none, cancelled := false, streamOpen := false }
      PollResponse.netError).2.2.1 rfl rfl).1

theorem autoDownloadRuns_aux (url : Option String) :
    ∀ (outs : List ((Nat → ProbeRound) × Bool)) (b : Bool) (c : Nat),
      c + (if b then 0 else 1) ≤ 1 →
      (outs.foldl (autoDownloadStep url) (b, c)).2 ≤ 1 := by
  intro outs
  induction outs with
  | nil =>
      intro b c h
      have hc : c ≤ 1 := by cases b <;> simp at h <;> omega
      simpa using hc
  | cons o outs ih =>
      intro b c h
      rw [List.foldl_cons]
      have hstep : ∃ b' d, autoDownloadStep url (b, c) o = (b', c + d) ∧
          (c + d) + (if b' then 0 else 1) ≤ 1 := by
        unfold autoDownloadStep autoDownloadEffect
        by_cases hg : ((!jsTruthy url) = true ∨ (b, c).1 = true)
        · rw [if_pos hg]
          exact ⟨b, 0, rfl, h⟩
        · rw [if_neg hg]
          cases b with
          | true => exact absurd (Or.inr rfl) hg
          | false =>
              have hc0 : c = 0 := by simpa using h
              subst hc0
              by_cases hp : waitUntilReachable o.1 AUTO_DOWNLOAD_TRIES = true
              · rw [if_pos hp]
                cases o' : o.2 with
                | true =>
                    rw [if_pos rfl]
                    exact ⟨true, 1, rfl, by simp⟩
                | false =>
                    rw [if_neg (by simp)]
                    exact ⟨false, 0, rfl, by simp⟩
              · rw [if_neg hp]
                exact ⟨false, 0, rfl, by simp⟩
      obtain ⟨b', d, hs, hinv⟩ := hstep
      rw [hs]
      exact ih b' (c + d) hinv

/-- C7: the auto-download probe is bounded — 14 attempts (within 10–30), each
followed by a 500 ms delay; a started flag suppresses any further download;
the download is attempted only after a successful reachability probe; a probe
or download failure resets the flag to `false` (so a later `reportUrl` change
can retry), a success leaves it `true`; and across any sequence of effect
invocations for one `reportUrl` at most one download completes. -/
theorem C7_theorem :
    (AUTO_DOWNLOAD_TRIES = 14 ∧ 10 ≤ AUTO_DOWNLOAD_TRIES ∧ AUTO_DOWNLOAD_TRIES ≤ 30 ∧
      AUTO_DOWNLOAD_DELAY_MS = 500) ∧
    (∀ (url : Option String) (oracle : Nat → ProbeRound) (dl : Bool),
        (autoDownloadEffect url true oracle dl).downloadAttempted = false ∧
        (autoDownloadEffect url true oracle dl).downloadStarted = true) ∧
    (∀ (url : Option String) (started : Bool) (oracle : Nat → ProbeRound) (dl : Bool),
        ((autoDownloadEffect url started oracle dl).probed = true →
          (autoDownloadEffect url started oracle dl).downloadDone = false →
          (autoDownloadEffect url started oracle dl).downloadStarted = false) ∧
        ((autoDownloadEffect url started oracle dl).downloadDone = true →
          (autoDownloadEffect url started oracle dl).downloadStarted = true) ∧
        ((autoDownloadEffect url started oracle dl).downloadAttempted = true →
          waitUntilReachable oracle AUTO_DOWNLOAD_TRIES = true)) ∧
    (∀ (url : Option String) (outs : List ((Nat → ProbeRound) × Bool)),
        (autoDownloadRuns url false outs).2 ≤ 1) := by
  refine ⟨⟨rfl, by decide, by decide, rfl⟩, ?_, ?_, ?_⟩
  · intro url oracle dl
    unfold autoDownloadEffect
    rw [if_pos (Or.inr rfl)]
    exact ⟨rfl, rfl⟩
  · intro url started oracle dl
    unfold autoDownloadEffect
    by_cases hg : ((!jsTruthy url) = true ∨ started = true)
    · rw [if_pos hg]
      refine ⟨?_, ?_, ?_⟩
      · intro hp _
        exact absurd hp (by simp)
      · intro hd
        exact absurd hd (by simp)
      · intro ha
        exact absurd ha (by simp)
    · rw [if_neg hg]
      by_cases hp : waitUntilReachable oracle AUTO_DOWNLOAD_TRIES = true
      · rw [if_pos hp]
        cases dl with
        | true =>
            rw [if_pos rfl]
            exact ⟨fun _ hd => absurd hd (by simp), fun _ => rfl, fun _ => hp⟩
        | false =>
            rw [if_neg (by simp)]
            exact ⟨fun _ _ => rfl, fun hd => absurd hd (by simp), fun _ => hp⟩
      · rw [if_neg hp]
        refine ⟨fun _ _ => rfl, ?_, ?_⟩
        · intro hd
          exact absurd hd (by simp)
        · intro ha
          exact absurd ha (by simp)
  · intro url outs
    exact autoDownloadRuns_aux url outs false 0 (by simp)

/-- C7 witness: a failed probe (every round throws) resets the
download-started flag to `false`. -/
theorem C7_witness :
    (autoDownloadEffect (some "https://api/report.pdf") false
        (fun _ => { headOutcome := FetchOutcome.thrown,
                    getOutcome := FetchOutcome.thrown }) true).downloadStarted
      = false :=
  ((C7_theorem).2.2.1 (some "https://api/report.pdf") false
      (fun _ => { headOutcome := FetchOutcome.thrown,
                  getOutcome := FetchOutcome.thrown }) true).1 rfl rfl

theorem handleSse_normal_fields (s : ClientState) (p : SsePayload)
    (ht : ¬p.typeField = some "error") :
    (handleSseMessage s p).pollRequested = false ∧
    (handleSseMessage s p).state.cancelled = s.cancelled ∧
    (handleSseMessage s p).state.isComplete =
      (if p.functionField = some "generate_pdf_report" ∧
          p.statusField = some "completed" then true else s.isComplete) ∧
    (handleSseMessage s p).state.isProcessing =
      (if p.statusField = some "error" then false
       else if p.functionField = some "generate_pdf_report" ∧
          p.statusField = some "completed" then false else s.isProcessing) ∧
    (handleSseMessage s p).state.reportUrl =
      (if jsTruthy p.reportUrl then p.reportUrl else s.reportUrl) ∧
    (handleSseMessage s p).state.streamOpen =
      (if p.functionField = some "generate_pdf_report" ∧
          p.statusField = some "completed" then false else s.streamOpen) := by
  unfold handleSseMessage
  rw [if_neg ht]
  by_cases hd : (p.functionField = some "generate_pdf_report" ∧
      p.statusField = some "completed") <;>
    by_cases he : p.statusField = some "error" <;>
      simp [hd, he]

theorem runStep_mono (s : ClientState) (e : RunEvent) (h : s.isComplete = true) :
    (runStep s e).isComplete = true := by
  cases e with
  | sse p =>
      simp only [runStep]
      by_cases ho : s.streamOpen = true
      · rw [if_pos ho]
        by_cases ht : p.typeField = some "error"
        · unfold handleSseMessage
          rw [if_pos ht]
          exact h
        · rw [(handleSse_normal_fields s p ht).2.2.1]
          split_ifs with hd
          · rfl
          · exact h
      · rw [if_neg ho]
        exact h
  | poll r =>
      simp only [runStep]
      unfold pollStep
      rw [if_pos (Or.inr h)]
      exact h

theorem runStep_flip (s : ClientState) (e : RunEvent) (h0 : s.isComplete = false)
    (h1 : (runStep s e).isComplete = true) :
    CompletionReport e ∧ (runStep s e).isProcessing = false ∧
    ReportUrlRecorded e (runStep s e) := by
  cases e with
  | sse p =>
      simp only [runStep] at h1 ⊢
      by_cases ho : s.streamOpen = true
      · rw [if_pos ho] at h1 ⊢
        by_cases ht : p.typeField = some "error"
        · exfalso
          unfold handleSseMessage at h1
          rw [if_pos ht] at h1
          have hcontr : s.isComplete = true := h1
          rw [h0] at hcontr
          exact Bool.false_ne_true hcontr
        · have hic := (handleSse_normal_fields s p ht).2.2.1
          have hip := (handleSse_normal_fields s p ht).2.2.2.1
          have hru := (handleSse_normal_fields s p ht).2.2.2.2.1
          rw [hic] at h1
          by_cases hd : (p.functionField = some "generate_pdf_report" ∧
              p.statusField = some "completed")
          · refine ⟨⟨ht, hd.1, hd.2⟩, ?_, ?_⟩
            · rw [hip]
              split_ifs <;> rfl
            · show jsTruthy p.reportUrl = true → _
              intro hj
              rw [hru, if_pos hj]
          · exfalso
            rw [if_neg hd] at h1
            rw [h0] at h1
            exact Bool.false_ne_true h1
      · exfalso
        rw [if_neg ho] at h1
        rw [h0] at h1
        exact Bool.false_ne_true h1
  | poll r =>
      simp only [runStep] at h1 ⊢
      by_cases hg : (s.cancelled = true ∨ s.isComplete = true)
      · exfalso
        unfold pollStep at h1
        rw [if_pos hg] at h1
        have hcontr : s.isComplete = true := h1
        rw [h0] at hcontr
        exact Bool.false_ne_true hcontr
      · cases r with
        | netError =>
            exfalso
            unfold pollStep at h1
            rw [if_neg hg] at h1
            have hcontr : s.isComplete = true := h1
            rw [h0] at hcontr
            exact Bool.false_ne_true hcontr
        | notOk =>
            exfalso
            unfold pollStep at h1
            rw [if_neg hg] at h1
            have hcontr : s.isComplete = true := h1
            rw [h0] at hcontr
            exact Bool.false_ne_true hcontr
        | ok rep dat =>
            unfold pollStep at h1 ⊢
            rw [if_neg hg] at h1 ⊢
            cases dat with
            | none =>
                exfalso
                dsimp only at h1
                by_cases hj : jsTruthy rep = true
                · rw [if_pos hj] at h1
                  have hcontr : s.isComplete = true := h1
                  rw [h0] at hcontr
                  exact Bool.false_ne_true hcontr
                · rw [if_neg hj] at h1
                  have hcontr : s.isComplete = true := h1
                  rw [h0] at hcontr
                  exact Bool.false_ne_true hcontr
            | some data =>
                dsimp only at h1 ⊢
                by_cases hdone : data "generate_pdf_report" = some "completed"
                · refine ⟨hdone, ?_, ?_⟩
                  · rw [if_pos hdone]
                  · show jsTruthy rep = true → _
                    intro hj
                    rw [if_pos hdone]
                    show (if jsTruthy rep = true then
                        { s with reportUrl := rep } else s).reportUrl = rep
                    rw [if_pos hj]
                · exfalso
                  rw [if_neg hdone] at h1
                  by_cases hj : jsTruthy rep = true
                  · rw [if_pos hj] at h1
                    have hcontr : s.isComplete = true := h1
                    rw [h0] at hcontr
                    exact Bool.false_ne_true hcontr
                  · rw [if_neg hj] at h1
                    have hcontr : s.isComplete = true := h1
                    rw [h0] at hcontr
                    exact Bool.false_ne_true hcontr

theorem runStep_fires (s : ClientState) (e : RunEvent) (h0 : s.isComplete = false)
    (hcr : CompletionReport e) (hdel : Deliverable s e) :
    (runStep s e).isComplete = true := by
  cases e with
  | sse p =>
      have ho : s.streamOpen = true := hdel
      obtain ⟨ht, hf, hs⟩ : ¬p.typeField = some "error" ∧
          p.functionField = some "generate_pdf_report" ∧
          p.statusField = some "completed" := hcr
      simp only [runStep]
      rw [if_pos ho, (handleSse_normal_fields s p ht).2.2.1, if_pos ⟨hf, hs⟩]
  | poll r =>
      have hcan : s.cancelled = false := hdel
      cases r with
      | netError => exact hcr.elim
      | notOk => exact hcr.elim
      | ok rep dat =>
          cases dat with
          | none => exact hcr.elim
          | some data =>
              have hdone : data "generate_pdf_report" = some "completed" := hcr
              have hg : ¬(s.cancelled = true ∨ s.isComplete = true) := by
                rintro (h | h)
                · rw [hcan] at h
                  exact Bool.false_ne_true h
                · rw [h0] at h
                  exact Bool.false_ne_true h
              simp only [runStep]
              unfold pollStep
              rw [if_neg hg]
              dsimp only
              rw [if_pos hdone]

theorem stateAt_succ (s : ClientState) (es : List RunEvent) (i : Nat) :
    stateAt s es (i + 1) =
      match es[i]? with
      | some e => runStep (stateAt s es i) e
      | none => stateAt s es i := by
  unfold stateAt runTrace
  rw [List.take_succ]
  rw [List.foldl_append]
  cases h : es[i]? with
  | some e => rfl
  | none => rfl

theorem stateAt_complete_mono (s : ClientState) (es : List RunEvent) (i k : Nat)
    (h : (stateAt s es i).isComplete = true) :
    (stateAt s es (i + k)).isComplete = true := by
  induction k with
  | zero => exact h
  | succ k ih =>
      have hadd : i + (k + 1) = (i + k) + 1 := by omega
      rw [hadd, stateAt_succ]
      cases hg : es[i + k]? with
      | none => exact ih
      | some e => exact runStep_mono _ e ih

/-- C2: within one run, `isComplete` flips from `false` to `true` at most
once; the flip is caused exactly by a `generate_pdf_report: completed` report
(through either channel), which simultaneously sets `isProcessing = false`
and records the message's `reportUrl` when present; and the first deliverable
completion report in a not-yet-complete state does perform the flip. -/
theorem C2_theorem (s₀ : ClientState) (es : List RunEvent) :
    (∀ i j, FlipAt s₀ es i → FlipAt s₀ es j → i = j) ∧
    (∀ i, FlipAt s₀ es i →
      ∃ e, es[i]? = some e ∧ CompletionReport e ∧
        (stateAt s₀ es (i + 1)).isProcessing = false ∧
        ReportUrlRecorded e (stateAt s₀ es (i + 1))) ∧
    (∀ i e, es[i]? = some e → CompletionReport e →
        Deliverable (stateAt s₀ es i) e →
        (stateAt s₀ es i).isComplete = false → FlipAt s₀ es i) := by
  have key : ∀ a b, a < b → FlipAt s₀ es a → FlipAt s₀ es b → False := by
    intro a b hab ha hb
    obtain ⟨k, hk⟩ := Nat.le.dest (show a + 1 ≤ b by omega)
    have hmono := stateAt_complete_mono s₀ es (a + 1) k ha.2
    rw [hk] at hmono
    rw [hb.1] at hmono
    exact Bool.false_ne_true hmono
  refine ⟨?_, ?_, ?_⟩
  · intro i j hi hj
    rcases Nat.lt_trichotomy i j with h | h | h
    · exact (key i j h hi hj).elim
    · exact h
    · exact (key j i h hj hi).elim
  · intro i hflip
    cases hg : es[i]? with
    | none =>
        exfalso
        have h2 := hflip.2
        rw [stateAt_succ, hg] at h2
        rw [hflip.1] at h2
        exact Bool.false_ne_true h2
    | some e =>
        have h1 : (runStep (stateAt s₀ es i) e).isComplete = true := by
          have h2 := hflip.2
          rw [stateAt_succ, hg] at h2
          exact h2
        obtain ⟨hcr, hproc, hrec⟩ := runStep_flip _ e hflip.1 h1
        refine ⟨e, rfl, hcr, ?_, ?_⟩
        · rw [stateAt_succ, hg]
          exact hproc
        · rw [stateAt_succ, hg]
          exact hrec
  · intro i e hg hcr hdel h0
    refine ⟨h0, ?_⟩
    rw [stateAt_succ, hg]
    exact runStep_fires _ e h0 hcr hdel

/-- C2 witness: one stream completion message flips a fresh run to complete
at position 0. -/
theorem C2_witness :
    FlipAt
      { steps := resetSteps, isProcessing := true, isComplete := false,
        reportUrl := none, cancelled := false, streamOpen := true }
      [RunEvent.sse
        { functionField := some "generate_pdf_report",
          statusField := some "completed",
          reportUrl := some "https://api/report.pdf" }] 0 :=
  (C2_theorem
      { steps := resetSteps, isProcessing := true, isComplete := false,
        reportUrl := none, cancelled := false, streamOpen := true }
      [RunEvent.sse
        { functionField := some "generate_pdf_report",
          statusField := some "completed",
          reportUrl := some "https://api/report.pdf" }]).2.2 0
    (RunEvent.sse
      { functionField := some "generate_pdf_report",
        statusField := some "completed",
        reportUrl := some "https://api/report.pdf" })
    rfl ⟨by simp, rfl, rfl⟩ rfl rfl

/-- C5 counterexample: in the frontend copy's `startFromPdf`, the init call
is at trace position 1 and the upload only at position 3 (after the
event-stream open), so the upload is not performed before init; moreover in a
run whose upload fails, init was already attempted (it sits in the first two
actions of the trace). -/
theorem C5_counterexample :
    (startFromPdfTrace true true true)[1]? = some RunAction.initCall ∧
    (startFromPdfTrace true true true)[3]? = some RunAction.uploadCall ∧
    (startFromPdfTrace true true true).take 3 =
      [RunAction.resetUIAction, RunAction.initCall, RunAction.openStreamCall] ∧
    (startFromPdfTrace true false true).take 2 =
      [RunAction.resetUIAction, RunAction.initCall] := by
  refine ⟨rfl, rfl, by decide, by decide⟩

/-- C5 (amended): in the frontend copy of `startFromPdf` the init call
precedes the upload (`resetUI`, `init`, `openEventStream`, `upload`, …); a
failed upload still aborts the run — `isProcessing` ends `false` and the
start-pipeline call is never made; in the alternate copy
(`src/unnamed/part_025`) the upload precedes init, and a failed upload aborts
the run before init is attempted, as the claim states. -/
theorem C5_theorem (initOk uploadOk startOk : Bool) :
    ((startFromPdfTrace initOk uploadOk startOk)[0]? = some RunAction.resetUIAction) ∧
    ((startFromPdfTrace initOk uploadOk startOk)[1]? = some RunAction.initCall) ∧
    (initOk = true →
      (startFromPdfTrace initOk uploadOk startOk)[3]? = some RunAction.uploadCall) ∧
    (initOk = true → uploadOk = false →
      startFromPdfTrace initOk uploadOk startOk =
        [RunAction.resetUIAction, RunAction.initCall, RunAction.openStreamCall,
         RunAction.uploadCall, RunAction.abortCleanup] ∧
      RunAction.startPipelineCall "pdf" ∉ startFromPdfTrace initOk uploadOk startOk ∧
      processingAfter (startFromPdfTrace initOk uploadOk startOk) = false) ∧
    ((startFromPdfAltTrace uploadOk initOk startOk)[1]? = some RunAction.uploadCall) ∧
    (uploadOk = false →
      startFromPdfAltTrace uploadOk initOk startOk =
        [RunAction.resetUIAction, RunAction.uploadCall, RunAction.abortCleanup] ∧
      RunAction.initCall ∉ startFromPdfAltTrace uploadOk initOk startOk ∧
      processingAfter (startFromPdfAltTrace uploadOk initOk startOk) = false) := by
  cases initOk <;> cases uploadOk <;> cases startOk <;>
    refine ⟨rfl, rfl, ?_, ?_, rfl, ?_⟩ <;> decide

/-- C5 witness: a run of the frontend copy with a failed upload: init already
ran, the pipeline is never started, and `isProcessing` ends `false`. -/
theorem C5_witness :
    startFromPdfTrace true false true =
      [RunAction.resetUIAction, RunAction.initCall, RunAction.openStreamCall,
       RunAction.uploadCall, RunAction.abortCleanup] ∧
    processingAfter (startFromPdfTrace true false true) = false :=
  ⟨((C5_theorem true false true).2.2.2.1 rfl rfl).1,
   ((C5_theorem true false true).2.2.2.1 rfl rfl).2.2⟩

/-- C6: the frontend copy's `uploadPdf` posts the multipart form to
`POST {API_BASE}/api/scan-pdf` and throws exactly when the response is not
OK, but appends the file under the form field name `file` — not `pdf`, the
name used by the alternate copy and documented there as what the backend's
`scan_pdf_endpoint(pdf: UploadFile = File(...))` expects. -/
theorem C6_theorem :
    (uploadPdfRequest none).method = "POST" ∧
    (uploadPdfRequest none).url = apiBase none ++ "/api/scan-pdf" ∧
    apiBase none = "https://curricalign-production.up.railway.app" ∧
    (uploadPdfRequest none).formFieldName = "file" ∧
    uploadPdfAltFormFieldName = "pdf" ∧
    (∀ resOk : Bool, uploadPdfThrows resOk = !resOk) ∧
    (∀ resOk : Bool, uploadPdfAltThrows resOk = !resOk) := by
  refine ⟨rfl, rfl, ?_, rfl, rfl, fun _ => rfl, fun _ => rfl⟩
  decide

end Orchestrator
